import Mathlib

set_option maxRecDepth 100000

/-!
Shallow embedding of `squiggly_shapes` (src/perlin.rs and src/geom.rs).

Rust `f32` arithmetic is modelled exactly over `ℚ` (the algorithm's real
arithmetic); Rust `i32` is modelled as `ℤ`, with two's-complement bitwise
masking written as reduction to the least nonnegative residue (`%` is
`Int.emod`, whose result is nonnegative for a positive modulus):
`n & 255` on an `i32` is `n % 256`, `n & 0x0f` is `n % 16`, and
`h & 2 == 0` for `0 ≤ h < 16` is `h / 2 % 2 == 0`.
`expr as i32` on a float is Rust's saturating cast, and `i as usize` is
sign extension to 64 bits, i.e. reduction `% 2^64`.
-/

namespace Perlin

/-- Table of permutations (`const P: [u8; 256]` in src/perlin.rs). -/
def P : List ℕ := [
  151, 160, 137, 91, 90, 15, 131, 13, 201, 95, 96, 53, 194, 233, 7, 225, 140, 36, 103, 30, 69,
  142, 8, 99, 37, 240, 21, 10, 23, 190, 6, 148, 247, 120, 234, 75, 0, 26, 197, 62, 94, 252, 219,
  203, 117, 35, 11, 32, 57, 177, 33, 88, 237, 149, 56, 87, 174, 20, 125, 136, 171, 168, 68, 175,
  74, 165, 71, 134, 139, 48, 27, 166, 77, 146, 158, 231, 83, 111, 229, 122, 60, 211, 133, 230,
  220, 105, 92, 41, 55, 46, 245, 40, 244, 102, 143, 54, 65, 25, 63, 161, 1, 216, 80, 73, 209, 76,
  132, 187, 208, 89, 18, 169, 200, 196, 135, 130, 116, 188, 159, 86, 164, 100, 109, 198, 173,
  186, 3, 64, 52, 217, 226, 250, 124, 123, 5, 202, 38, 147, 118, 126, 255, 82, 85, 212, 207, 206,
  59, 227, 47, 16, 58, 17, 182, 189, 28, 42, 223, 183, 170, 213, 119, 248, 152, 2, 44, 154, 163,
  70, 221, 153, 101, 155, 167, 43, 172, 9, 129, 22, 39, 253, 19, 98, 108, 110, 79, 113, 224, 232,
  178, 185, 112, 104, 218, 246, 97, 228, 251, 34, 242, 193, 238, 210, 144, 12, 191, 179, 162,
  241, 81, 51, 145, 235, 249, 14, 239, 107, 49, 192, 214, 31, 181, 199, 106, 157, 184, 84, 204,
  176, 115, 121, 50, 45, 127, 4, 150, 254, 138, 236, 205, 93, 222, 114, 67, 29, 24, 72, 243, 141,
  128, 195, 78, 66, 215, 61, 156, 180]

/-- The index used by the permutation-table lookup: `(i as usize) % P.len()`;
`i as usize` sign-extends the `i32` to 64 bits, i.e. takes `i % 2^64`. -/
def pIndex (i : ℤ) : ℕ := ((i % 2 ^ 64).toNat) % P.length

/-- Look-up an item from the table of permutations
(`fn p(i: i32) -> i32 { P[(i as usize) % P.len()] as i32 }`). -/
def p (i : ℤ) : ℤ := (P.getD (pIndex i) 0 : ℤ)

/-- `fn fade(t: f32) -> f32 { t * t * t * (t * (t * 6.0 - 15.0) + 10.0) }` -/
def fade (t : ℚ) : ℚ := t * t * t * (t * (t * 6 - 15) + 10)

/-- `fn lerp(t: f32, a: f32, b: f32) -> f32 { a + t * (b - a) }` -/
def lerp (t a b : ℚ) : ℚ := a + t * (b - a)

/-- `fn grad(hash: i32, x: f32, y: f32, z: f32) -> f32`; `hash & 0x0f` on a
two's-complement `i32` is `hash % 16`, and for `0 ≤ h < 16`, `h & 1` is
`h % 2` and `h & 2 == 0` is `h / 2 % 2 == 0`. -/
def grad (hash : ℤ) (x y z : ℚ) : ℚ :=
  let h := hash % 16
  let u := if h < 8 then x else y
  let v := if h < 4 then y else if h = 12 ∨ h = 14 then x else z
  let uComp := if h % 2 = 0 then u else -u
  let vComp := if h / 2 % 2 = 0 then v else -v
  uComp + vComp

/-- `fn clamp(min: f32, max: f32, x: f32) -> f32`. -/
def clamp (min max x : ℚ) : ℚ := if x < min then min else if x > max then max else x

/-- `i32::MIN as f32` is exactly `-2^31`. -/
def i32MinF : ℚ := -(2 ^ 31)

/-- `i32::MAX as f32`: `2^31 - 1` is not an `f32`; the cast rounds to `2^31`. -/
def i32MaxF : ℚ := 2 ^ 31

/-- Rust's float-to-`i32` `as` cast is saturating (the argument here is the
mathematical floor of the float, already an integer). -/
def satI32 (i : ℤ) : ℤ := max (-(2 ^ 31)) (min (2 ^ 31 - 1) i)

/-- Find unit-cube coordinate and offset into the unit cube
(`fn ucu(x: f32) -> (i32, f32)`):
`let x_i32 = (clamp(i32::MIN as f32, i32::MAX as f32, x).floor() as i32) & 255;`
`(x_i32, x - x_i32 as f32)`. `& 255` on an `i32` is `% 256`. -/
def ucu (x : ℚ) : ℤ × ℚ :=
  let xI32 : ℤ := (satI32 ⌊clamp i32MinF i32MaxF x⌋) % 256
  (xI32, x - (xI32 : ℚ))

/-- `pub fn noise(x: f32, y: f32, z: f32) -> f32` (src/perlin.rs lines 16-57). -/
def noise (x y z : ℚ) : ℚ :=
  let xc := ucu x
  let yc := ucu y
  let zc := ucu z
  let xCube := xc.1
  let x := xc.2
  let yCube := yc.1
  let y := yc.2
  let zCube := zc.1
  let z := zc.2
  let u := fade x
  let v := fade y
  let w := fade z
  let a := p xCube + yCube
  let aa := p a + zCube
  let ab := p (a + 1) + zCube
  let b := p (xCube + 1) + yCube
  let ba := p b + zCube
  let bb := p (b + 1) + zCube
  lerp w
    (lerp v
      (lerp u (grad (p aa) x y z) (grad (p ba) (x - 1) y z))
      (lerp u (grad (p ab) x (y - 1) z) (grad (p bb) (x - 1) (y - 1) z)))
    (lerp v
      (lerp u (grad (p (aa + 1)) x y (z - 1)) (grad (p (ba + 1)) (x - 1) y (z - 1)))
      (lerp u (grad (p (ab + 1)) x (y - 1) (z - 1)) (grad (p (bb + 1)) (x - 1) (y - 1) (z - 1))))

/-- Reference 8-corner composition, written out as the specification describes
it: unit-cube index and fractional offset per axis, fade weights, the six
corner-hash values `a, aa, ab, b, ba, bb`, and the nested x-then-y-then-z
linear interpolation of the eight gradient contributions. -/
def refNoise (x y z : ℚ) : ℚ :=
  let xcf := ucu x
  let ycf := ucu y
  let zcf := ucu z
  let xc := xcf.1
  let xf := xcf.2
  let yc := ycf.1
  let yf := ycf.2
  let zc := zcf.1
  let zf := zcf.2
  let u := fade xf
  let v := fade yf
  let w := fade zf
  let a := p xc + yc
  let aa := p a + zc
  let ab := p (a + 1) + zc
  let b := p (xc + 1) + yc
  let ba := p b + zc
  let bb := p (b + 1) + zc
  lerp w
    (lerp v
      (lerp u (grad (p aa) xf yf zf) (grad (p ba) (xf - 1) yf zf))
      (lerp u (grad (p ab) xf (yf - 1) zf) (grad (p bb) (xf - 1) (yf - 1) zf)))
    (lerp v
      (lerp u (grad (p (aa + 1)) xf yf (zf - 1)) (grad (p (ba + 1)) (xf - 1) yf (zf - 1)))
      (lerp u (grad (p (ab + 1)) xf (yf - 1) (zf - 1))
        (grad (p (bb + 1)) (xf - 1) (yf - 1) (zf - 1))))

/-- The 12 cube-edge midpoint directions of Improved Perlin Noise. -/
def gradDirections : List (ℤ × ℤ × ℤ) :=
  [(1, 1, 0), (-1, 1, 0), (1, -1, 0), (-1, -1, 0),
   (1, 0, 1), (-1, 0, 1), (1, 0, -1), (-1, 0, -1),
   (0, 1, 1), (0, -1, 1), (0, 1, -1), (0, -1, -1)]

/-- An `f32` input value: a finite value (modelled exactly as a rational),
NaN, or one of the two infinities. -/
inductive F32 where
  | fin : ℚ → F32
  | nan : F32
  | inf : F32
  | ninf : F32

/-- `clamp` on a general `f32` argument with finite bounds: every comparison
against NaN is false, so NaN passes through; `+∞ > max` yields `max`;
`-∞ < min` yields `min`. -/
def clampF (mn mx : ℚ) (v : F32) : F32 :=
  match v with
  | .fin q => .fin (clamp mn mx q)
  | .nan => .nan
  | .inf => .fin mx
  | .ninf => .fin mn

/-- `f32::floor`: NaN and the infinities are fixed points. -/
def floorF : F32 → F32
  | .fin q => .fin (⌊q⌋ : ℚ)
  | v => v

/-- Truncation toward zero of a rational (the rounding used by `as i32`). -/
def truncQ (q : ℚ) : ℤ := if 0 ≤ q then ⌊q⌋ else ⌈q⌉

/-- Rust's `as i32` cast on an `f32`: truncate toward zero, saturating at the
`i32` bounds; NaN casts to 0, `+∞` to `i32::MAX`, `-∞` to `i32::MIN`. -/
def castI32 : F32 → ℤ
  | .fin q => satI32 (truncQ q)
  | .nan => 0
  | .inf => 2 ^ 31 - 1
  | .ninf => -(2 ^ 31)

/-- Subtracting a finite value from an `f32`: NaN and infinities absorb. -/
def subF : F32 → ℚ → F32
  | .fin q, r => .fin (q - r)
  | v, _ => v

/-- `ucu` on a general `f32` argument (same pipeline as `ucu`, with the float
special values tracked): clamp, floor, saturating cast, mask, subtract. -/
def ucuF (v : F32) : ℤ × F32 :=
  let xI32 : ℤ := (castI32 (floorF (clampF i32MinF i32MaxF v))) % 256
  (xI32, subF v (xI32 : ℚ))

end Perlin

namespace Geom

/-- 2D point (`pub struct P2D<R>` in src/geom.rs). -/
structure P2D (R : Type) where
  x : R
  y : R

/-- `P2D::distance_between_squared` (generic over `R: Num + Copy`). -/
def P2D.distanceBetweenSquared {R : Type} [CommRing R] (p1 p2 : P2D R) : R :=
  let dx := p1.x - p2.x
  let dy := p1.y - p2.y
  dx * dx + dy * dy

/-- `P2D::distance_between` (for `R: Float`, modelled at the real numbers,
`sqrt` being `Real.sqrt`). -/
noncomputable def P2D.distanceBetween (p1 p2 : P2D ℝ) : ℝ :=
  Real.sqrt (P2D.distanceBetweenSquared p1 p2)

/-- Axis-aligned bounding box (`pub struct AABB<R>`). -/
structure AABB (R : Type) where
  origin : P2D R
  width : R
  height : R

/-- `AABB::new`: validates `width > R::from(0) && height > R::from(0)`. -/
def AABB.new {R : Type} [LinearOrderedField R] (origin : P2D R) (width height : R) :
    Option (AABB R) :=
  if 0 < width ∧ 0 < height then some ⟨origin, width, height⟩ else none

/-- Ellipse (`pub struct Ellipse<R>`). -/
structure Ellipse (R : Type) where
  center : P2D R
  x_radius : R
  y_radius : R
  angle : R

/-- `Ellipse::new`: validates `x_radius > R::from(0) && y_radius > R::from(0)`;
the angle is not constrained. -/
def Ellipse.new {R : Type} [LinearOrderedField R] (center : P2D R) (x_radius y_radius angle : R) :
    Option (Ellipse R) :=
  if 0 < x_radius ∧ 0 < y_radius then some ⟨center, x_radius, y_radius, angle⟩ else none

/-- Triangle (`pub struct Triangle<R>`, for `R: Float` modelled at ℝ);
`points: [P2D<R>; 3]` modelled as a triple. -/
structure Triangle where
  points : P2D ℝ × P2D ℝ × P2D ℝ

/-- `Triangle::area`: Heron's formula from the three pairwise distances.
`R::from(0.5)` always succeeds at a float type; it is the constant `1/2`. -/
noncomputable def Triangle.area (t : Triangle) : ℝ :=
  let a := P2D.distanceBetween t.points.1 t.points.2.1
  let b := P2D.distanceBetween t.points.2.1 t.points.2.2
  let c := P2D.distanceBetween t.points.2.2 t.points.1
  let half : ℝ := 1 / 2
  let s := half * (a + b + c)
  Real.sqrt (s * (s - a) * (s - b) * (s - c))

/-- `Triangle::new`: builds the candidate and validates
`candidate.area() >= min_area`. -/
noncomputable def Triangle.new (p1 p2 p3 : P2D ℝ) (min_area : ℝ) : Option Triangle :=
  let candidate : Triangle := ⟨(p1, p2, p3)⟩
  if candidate.area ≥ min_area then some candidate else none

/-- Triangle area as the specification words it: semiperimeter `s` from the
three pairwise distances, then `sqrt(s(s-a)(s-b)(s-c))`. -/
noncomputable def heronArea (p1 p2 p3 : P2D ℝ) : ℝ :=
  let a := P2D.distanceBetween p1 p2
  let b := P2D.distanceBetween p2 p3
  let c := P2D.distanceBetween p3 p1
  let s := (a + b + c) / 2
  Real.sqrt (s * (s - a) * (s - b) * (s - c))

end Geom

namespace Perlin

/-- C8: `fade` computes the quintic fade curve `6t^5 - 15t^4 + 10t^3`
(the Horner form in the code equals this polynomial), and in particular
`fade 0 = 0` and `fade 1 = 1`. -/
theorem c8_fade_is_quintic :
    (∀ t : ℚ, fade t = 6 * t ^ 5 - 15 * t ^ 4 + 10 * t ^ 3) ∧ fade 0 = 0 ∧ fade 1 = 1 := by
  refine ⟨fun t => ?_, by norm_num [fade], by norm_num [fade]⟩
  unfold fade
  ring

/-- C10: `noise` is deterministic and stateless — two evaluations at
identical arguments give identical results. -/
theorem c10_noise_deterministic :
    ∀ x1 y1 z1 x2 y2 z2 : ℚ, x1 = x2 → y1 = y2 → z1 = z2 →
      noise x1 y1 z1 = noise x2 y2 z2 := by
  intro x1 y1 z1 x2 y2 z2 hx hy hz
  rw [hx, hy, hz]

/-- Witness for C10 at the concrete input `(1, 2, 3)`. -/
theorem c10_noise_deterministic_witness : noise 1 2 3 = noise 1 2 3 :=
  c10_noise_deterministic 1 2 3 1 2 3 rfl rfl rfl

/-- C3: `noise` equals the reference 8-corner trilinear composition
`refNoise` (corner hashes `a, aa, ab, b, ba, bb`, gradients at the eight
corner offsets, nested lerp in x-then-y-then-z order). -/
theorem c3_noise_eq_refNoise : ∀ x y z : ℚ, noise x y z = refNoise x y z :=
  fun _ _ _ => rfl

/-- C6: the permutation table is a bijection on `0..255`: as a sequence of
256 entries it is a permutation of `[0, …, 255]`. -/
theorem c6_P_bijection : P.Perm (List.range 256) := by decide

lemma satI32_eq (i : ℤ) (h1 : -(2 ^ 31) ≤ i) (h2 : i ≤ 2 ^ 31 - 1) : satI32 i = i := by
  unfold satI32
  rw [min_eq_right h2, max_eq_right h1]

lemma clamp_eq_self (x : ℚ) (h1 : i32MinF ≤ x) (h2 : x ≤ i32MaxF) :
    clamp i32MinF i32MaxF x = x := by
  unfold clamp
  rw [if_neg (not_lt.mpr h1), if_neg (not_lt.mpr h2)]

/-- `ucu` at an integer input inside the `i32` range: the unit-cube index is
the least nonnegative residue of `n` mod 256, and the fractional offset is
`n` minus that residue. -/
lemma ucu_int (n : ℤ) (h1 : -(2 ^ 31) ≤ n) (h2 : n ≤ 2 ^ 31 - 1) :
    ucu (n : ℚ) = (n % 256, (n : ℚ) - ((n % 256 : ℤ) : ℚ)) := by
  unfold ucu
  rw [clamp_eq_self (n : ℚ) (by unfold i32MinF; exact_mod_cast h1)
      (by unfold i32MaxF; exact_mod_cast h2.trans (by norm_num)),
    Int.floor_intCast, satI32_eq n h1 h2]

lemma ucu_zero : ucu (0 : ℚ) = (0, 0) := by
  have h := ucu_int 0 (by norm_num) (by norm_num)
  norm_num at h
  exact_mod_cast h

lemma ucu_five : ucu (5 : ℚ) = (5, 0) := by
  have h := ucu_int 5 (by norm_num) (by norm_num)
  rw [show ((5 : ℤ) % 256) = 5 by decide] at h
  norm_num at h
  exact_mod_cast h

lemma ucu_neg_one : ucu (-1 : ℚ) = (255, -256) := by
  have h := ucu_int (-1) (by norm_num) (by norm_num)
  rw [show ((-1 : ℤ) % 256) = 255 by decide] at h
  norm_num at h
  exact_mod_cast h

lemma ucu_neg_three : ucu (-3 : ℚ) = (253, -256) := by
  have h := ucu_int (-3) (by norm_num) (by norm_num)
  rw [show ((-3 : ℤ) % 256) = 253 by decide] at h
  norm_num at h
  exact_mod_cast h

lemma fade_zero : fade 0 = 0 := by norm_num [fade]

lemma lerp_zero_wt (a b : ℚ) : lerp 0 a b = a := by simp [lerp]

lemma grad_at_origin (h : ℤ) : grad h 0 0 0 = 0 := by
  simp [grad]

/-- `noise` along the x-axis: with `y = z = 0` the y- and z-interpolations
collapse (their weights are `fade 0 = 0`), leaving a single x-lerp between
the two corner gradients. -/
lemma noise_x00 (x : ℚ) :
    noise x 0 0 = lerp (fade (ucu x).2)
      (grad (p (p (p (ucu x).1))) (ucu x).2 0 0)
      (grad (p (p (p ((ucu x).1 + 1)))) ((ucu x).2 - 1) 0 0) := by
  simp only [noise, ucu_zero, fade_zero, add_zero, lerp_zero_wt]

/-- C1 (counter-evidence for the code bug): at `x = -3` the fractional
offset computed by `ucu` is `-256`, not `x - ⌊x⌋ = 0` — the code subtracts
the masked floor, the spec prescribes the unmasked floor. -/
theorem c1_ucu_frac_bug_at_neg_three :
    (ucu (-3 : ℚ)).2 = -256 ∧ (-3 : ℚ) - (⌊(-3 : ℚ)⌋ : ℚ) = 0 ∧
      (ucu (-3 : ℚ)).2 ≠ (-3 : ℚ) - (⌊(-3 : ℚ)⌋ : ℚ) := by
  have hf : ⌊(-3 : ℚ)⌋ = -3 := by
    rw [show (-3 : ℚ) = ((-3 : ℤ) : ℚ) by norm_num, Int.floor_intCast]
  have h1 : (ucu (-3 : ℚ)).2 = -256 := by rw [ucu_neg_three]
  have h2 : (-3 : ℚ) - (⌊(-3 : ℚ)⌋ : ℚ) = 0 := by rw [hf]; norm_num
  exact ⟨h1, h2, by rw [h1, h2]; norm_num⟩

/-- C2 (counter-evidence for the code bug): `noise (n, 0, 0)` vanishes at
the three instances the spec names (`0`, `5`, `-3`) but not at every
integer: at `n = -1` it is a huge nonzero value, far outside the
documented output range `[-1, 1]`. -/
theorem c2_integer_lattice_zero_bug :
    noise 0 0 0 = 0 ∧ noise 5 0 0 = 0 ∧ noise (-3) 0 0 = 0 ∧
      noise (-1) 0 0 = 3417432630755584 := by
  refine ⟨?_, ?_, ?_, ?_⟩
  · rw [noise_x00, ucu_zero]
    simp [fade_zero, lerp_zero_wt, grad_at_origin]
  · rw [noise_x00, ucu_five]
    simp [fade_zero, lerp_zero_wt, grad_at_origin]
  · rw [noise_x00, ucu_neg_three]
    rw [show p (p (p (253 : ℤ))) = 221 by decide,
      show p (p (p ((253 : ℤ) + 1))) = 157 by decide]
    rw [show grad 221 (-256 : ℚ) 0 0 = 0 by norm_num [grad],
      show grad 157 ((-256 : ℚ) - 1) 0 0 = 0 by norm_num [grad]]
    simp [lerp]
  · rw [noise_x00, ucu_neg_one]
    rw [show p (p (p (255 : ℤ))) = 30 by decide,
      show p (p (p ((255 : ℤ) + 1))) = 36 by decide]
    rw [show grad 30 (-256 : ℚ) 0 0 = 256 by norm_num [grad],
      show grad 36 ((-256 : ℚ) - 1) 0 0 = -257 by norm_num [grad]]
    norm_num [lerp, fade]

lemma grad_emod (hash : ℤ) (x y z : ℚ) : grad hash x y z = grad (hash % 16) x y z := by
  have h2 : hash % 16 % 16 = hash % 16 := Int.emod_emod_of_dvd hash dvd_rfl
  simp only [grad, h2]

lemma grad_direction (h : ℤ) (h0 : 0 ≤ h) (h16 : h < 16) (x y z : ℚ) :
    ∃ d ∈ gradDirections, grad h x y z = (d.1 : ℚ) * x + (d.2.1 : ℚ) * y + (d.2.2 : ℚ) * z := by
  interval_cases h
  · exact ⟨(1, 1, 0), by decide, by norm_num [grad]⟩
  · exact ⟨(-1, 1, 0), by decide, by norm_num [grad]⟩
  · exact ⟨(1, -1, 0), by decide, by norm_num [grad]⟩
  · exact ⟨(-1, -1, 0), by decide, by norm_num [grad]⟩
  · exact ⟨(1, 0, 1), by decide, by norm_num [grad]⟩
  · exact ⟨(-1, 0, 1), by decide, by norm_num [grad]⟩
  · exact ⟨(1, 0, -1), by decide, by norm_num [grad]⟩
  · exact ⟨(-1, 0, -1), by decide, by norm_num [grad]⟩
  · exact ⟨(0, 1, 1), by decide, by norm_num [grad]⟩
  · exact ⟨(0, -1, 1), by decide, by norm_num [grad]⟩
  · exact ⟨(0, 1, -1), by decide, by norm_num [grad]⟩
  · exact ⟨(0, -1, -1), by decide, by norm_num [grad]⟩
  · exact ⟨(1, 1, 0), by decide, by norm_num [grad]; ring⟩
  · exact ⟨(0, -1, 1), by decide, by norm_num [grad]⟩
  · exact ⟨(-1, 1, 0), by decide, by norm_num [grad]; ring⟩
  · exact ⟨(0, -1, -1), by decide, by norm_num [grad]⟩

/-- C4: `grad` depends only on the low 4 bits of the hash, and its value is
always the dot product of `(x, y, z)` with one of the 12 cube-edge midpoint
directions (`hash & 0x0f` on a two's-complement `i32` is `hash % 16`). -/
theorem c4_grad_low_bits_and_directions :
    ∀ (hash : ℤ) (x y z : ℚ),
      grad hash x y z = grad (hash % 16) x y z ∧
      ∃ d ∈ gradDirections,
        grad hash x y z = (d.1 : ℚ) * x + (d.2.1 : ℚ) * y + (d.2.2 : ℚ) * z := by
  intro hash x y z
  refine ⟨grad_emod hash x y z, ?_⟩
  rw [grad_emod hash x y z]
  exact grad_direction (hash % 16) (Int.emod_nonneg hash (by norm_num))
    (Int.emod_lt_of_pos hash (by norm_num)) x y z

lemma truncQ_intCast (n : ℤ) : truncQ (n : ℚ) = n := by
  unfold truncQ
  split_ifs <;> simp

/-- C5: the noise pipeline is total and in-bounds: for every `f32` input
(finite, NaN or infinite) the unit-cube index computed by `ucu` lies in
`[0, 255]`; the permutation-table index is in bounds for every `i32`
argument; the coordinate is clamped into the `i32`-representable range
before the truncating cast; and on finite inputs the extended pipeline
agrees with `ucu`. -/
theorem c5_noise_total_and_inbounds :
    (∀ v : F32, 0 ≤ (ucuF v).1 ∧ (ucuF v).1 ≤ 255) ∧
    (∀ i : ℤ, pIndex i < P.length) ∧
    (∀ x : ℚ, i32MinF ≤ clamp i32MinF i32MaxF x ∧ clamp i32MinF i32MaxF x ≤ i32MaxF) ∧
    (∀ x : ℚ, ucuF (F32.fin x) = ((ucu x).1, F32.fin (ucu x).2)) := by
  refine ⟨?_, ?_, ?_, ?_⟩
  · intro v
    simp only [ucuF]
    refine ⟨Int.emod_nonneg _ (by norm_num), ?_⟩
    have := Int.emod_lt_of_pos (castI32 (floorF (clampF i32MinF i32MaxF v)))
      (show (0 : ℤ) < 256 by norm_num)
    omega
  · intro i
    exact Nat.mod_lt _ (by decide)
  · intro x
    unfold clamp
    split_ifs with hlt hgt
    · exact ⟨le_refl _, by norm_num [i32MinF, i32MaxF]⟩
    · exact ⟨by norm_num [i32MinF, i32MaxF], le_refl _⟩
    · exact ⟨not_lt.mp hlt, not_lt.mp hgt⟩
  · intro x
    simp [ucuF, ucu, clampF, floorF, castI32, subF, truncQ_intCast]

/-- C9: on `0 ≤ x < 256` the unit-cube index computed by `ucu` is exactly
`⌊x⌋ ∈ [0, 255]` and the fractional offset is exactly `x - ⌊x⌋ ∈ [0, 1)`. -/
theorem c9_ucu_agrees_on_small_domain :
    ∀ x : ℚ, 0 ≤ x → x < 256 →
      (ucu x).1 = ⌊x⌋ ∧ (ucu x).2 = x - (⌊x⌋ : ℚ) ∧
      0 ≤ (ucu x).1 ∧ (ucu x).1 ≤ 255 ∧ 0 ≤ (ucu x).2 ∧ (ucu x).2 < 1 := by
  intro x h0 h256
  have hfl : 0 ≤ ⌊x⌋ := Int.floor_nonneg.mpr h0
  have hfu : ⌊x⌋ < 256 := Int.floor_lt.mpr (by exact_mod_cast h256)
  have hclamp : clamp i32MinF i32MaxF x = x :=
    clamp_eq_self x (le_trans (by norm_num [i32MinF]) h0)
      (le_trans h256.le (by norm_num [i32MaxF]))
  have hsat : satI32 ⌊x⌋ = ⌊x⌋ := satI32_eq _ (by omega) (by omega)
  have hmod : ⌊x⌋ % 256 = ⌊x⌋ := Int.emod_eq_of_lt hfl hfu
  have h1 : (ucu x).1 = ⌊x⌋ := by
    simp only [ucu]
    rw [hclamp, hsat, hmod]
  have h2 : (ucu x).2 = x - (⌊x⌋ : ℚ) := by
    simp only [ucu]
    rw [hclamp, hsat, hmod]
  refine ⟨h1, h2, ?_, ?_, ?_, ?_⟩
  · rw [h1]; exact hfl
  · rw [h1]; omega
  · rw [h2]
    have := Int.floor_le x
    linarith
  · rw [h2]
    have := Int.lt_floor_add_one x
    push_cast at this ⊢
    linarith

/-- Witness for C9 at the concrete input `x = 3/2`. -/
theorem c9_ucu_agrees_on_small_domain_witness :
    (ucu (3 / 2 : ℚ)).1 = ⌊(3 / 2 : ℚ)⌋ ∧ (ucu (3 / 2 : ℚ)).2 = (3 / 2 : ℚ) - (⌊(3 / 2 : ℚ)⌋ : ℚ) ∧
      0 ≤ (ucu (3 / 2 : ℚ)).1 ∧ (ucu (3 / 2 : ℚ)).1 ≤ 255 ∧
      0 ≤ (ucu (3 / 2 : ℚ)).2 ∧ (ucu (3 / 2 : ℚ)).2 < 1 :=
  c9_ucu_agrees_on_small_domain (3 / 2) (by norm_num) (by norm_num)

end Perlin

namespace Geom

lemma area_eq_heron (p1 p2 p3 : P2D ℝ) :
    Triangle.area ⟨(p1, p2, p3)⟩ = heronArea p1 p2 p3 := by
  simp only [Triangle.area, heronArea]
  congr 1
  ring

/-- C7: each validated constructor returns `some` exactly when validation
passes and `none` otherwise (never a fault): `AABB.new` iff both dimensions
are positive, `Ellipse.new` iff both radii are positive (the angle is
unconstrained), `Triangle.new` iff the Heron area is at least the
threshold. -/
theorem c7_validated_constructors :
    (∀ (o : P2D ℚ) (w h : ℚ), (AABB.new o w h).isSome ↔ 0 < w ∧ 0 < h) ∧
    (∀ (c : P2D ℚ) (xr yr ang : ℚ), (Ellipse.new c xr yr ang).isSome ↔ 0 < xr ∧ 0 < yr) ∧
    (∀ (p1 p2 p3 : P2D ℝ) (m : ℝ),
      (Triangle.new p1 p2 p3 m).isSome ↔ m ≤ heronArea p1 p2 p3) := by
  refine ⟨?_, ?_, ?_⟩
  · intro o w h
    unfold AABB.new
    split_ifs with hc
    · simpa using hc
    · simpa using hc
  · intro c xr yr ang
    unfold Ellipse.new
    split_ifs with hc
    · simpa using hc
    · simpa using hc
  · intro p1 p2 p3 m
    simp only [Triangle.new]
    rw [area_eq_heron]
    split_ifs with hc
    · simpa [ge_iff_le] using hc
    · simpa [ge_iff_le] using hc

end Geom
